import Mathlib

/-!
Verification of the scroll-spy / navigation / rate-limiter / theme logic of a
single-page portfolio application.

The definitions below are a shallow embedding of:
  * `useScrollSpy` (src/types/index.ts, part of the hooks module) and the
    inlined copy of the same algorithm in
    src/components/layout/navigation/Navigation.tsx;
  * the contact form's rate limiter and submit handler
    (src/components/layout/contact/Contact.tsx);
  * theme initialisation and application (src/hooks/useTheme.tsx).

DOM geometry is modelled as an environment a scroll tick reads
(`window.scrollY`, `window.innerHeight`, `document.documentElement.scrollHeight`
and `getElementById(..).getBoundingClientRect()`); timers are modelled as an
explicit list of pending timers together with the ref holding the id of the
most recently scheduled one.  Machine numbers are modelled as `Int`
(pixel offsets and epoch milliseconds are far from any overflow in practice and
JavaScript numbers are doubles holding integers exactly in this range).
-/

namespace Portfolio

/-- Result of `getBoundingClientRect()` restricted to the fields the code
reads: the top and bottom of the element relative to the viewport top. -/
structure Rect where
  top : Int
  bottom : Int
deriving Repr, DecidableEq

/-- The browser state a scroll tick reads: `window.scrollY`,
`window.innerHeight`, `document.documentElement.scrollHeight`, and for each
section id the rendered bounding box (`none` models
`document.getElementById(id) === null`). -/
structure ScrollEnv where
  scrollY : Int
  innerHeight : Int
  scrollHeight : Int
  getRect : String → Option Rect

/-- Configuration of `useScrollSpy` (src/types/index.ts): the tracked section
ids plus the defaulted numeric options.  `initialSection? = none` models the
caller not passing `initialSection`, in which case the destructuring default
`sectionIds[0] || ''` applies. -/
structure ScrollSpyConfig where
  sectionIds : List String
  scrollThreshold : Int := 50
  offsetThreshold : Int := 100
  scrollTimeout : Int := 1000
  bottomTolerance : Int := 10
  initialSection? : Option String := none

/-- A pending `setTimeout` callback: its handle and the absolute time at which
it fires.  Every timer in this development re-enables scroll detection
(`setIsScrolling(false)`), so no payload is needed. -/
structure Timer where
  id : Nat
  fireTime : Int
deriving Repr, DecidableEq

/-- The state held by the `useScrollSpy` hook: the two `useState` cells
`scrolled` and `activeSection`, the `isScrolling` suppression flag, the
`scrollTimeoutRef` ref, plus the set of pending timers and a fresh-handle
counter modelling the browser's timer table. -/
structure SpyState where
  scrolled : Bool
  activeSection : String
  isScrolling : Bool
  scrollTimeoutRef : Option Nat
  pendingTimers : List Timer
  nextTimerId : Nat
deriving Repr, DecidableEq

/-- The state right after the hook initialises: `useState(false)`,
`useState(initialSection)` with `initialSection = sectionIds[0] || ''` when the
option is unset, `useState(false)`, `useRef(null)`, and no timers pending. -/
def initState (cfg : ScrollSpyConfig) : SpyState :=
  { scrolled := false
    activeSection := cfg.initialSection?.getD (cfg.sectionIds.headD "")
    isScrolling := false
    scrollTimeoutRef := none
    pendingTimers := []
    nextTimerId := 0 }

/-- The predicate the scan step evaluates for one section id:
`element !== null && rect.top <= offsetThreshold && rect.bottom >= offsetThreshold`. -/
def sectionMatches (env : ScrollEnv) (offsetThreshold : Int) (sid : String) : Bool :=
  match env.getRect sid with
  | none => false
  | some r => decide (r.top ≤ offsetThreshold) && decide (offsetThreshold ≤ r.bottom)

/-- The active-section value a non-suppressed scroll tick computes from the
previous one: bottom-of-page override to the last section (only taken when the
list is nonempty, per the `sectionIds.length > 0` guard); otherwise
`sectionIds.find(..)` on the bounding-box test, keeping the previous value
when no section matches. -/
def nextActive (cfg : ScrollSpyConfig) (env : ScrollEnv) (prev : String) : String :=
  let isAtBottom :=
    decide (env.innerHeight + env.scrollY ≥ env.scrollHeight - cfg.bottomTolerance)
  if isAtBottom && decide (cfg.sectionIds.length > 0) then
    cfg.sectionIds.getLastD ""
  else
    match cfg.sectionIds.find? (fun sid => sectionMatches env cfg.offsetThreshold sid) with
    | some current => current
    | none => prev

/-- One scroll tick: the `handleScroll` closure of `useScrollSpy`
(src/types/index.ts, also registered once at mount).  Steps, in source order:
set `scrolled`; early-return while `isScrolling`; then update `activeSection`
per `nextActive` (bottom override, else first detection-line match, else keep). -/
def handleScroll (cfg : ScrollSpyConfig) (env : ScrollEnv) (s : SpyState) : SpyState :=
  let s := { s with scrolled := decide (env.scrollY > cfg.scrollThreshold) }
  if s.isScrolling then
    s
  else
    { s with activeSection := nextActive cfg env s.activeSection }

/-- Function `scrollToSection` (src/types/index.ts and Navigation.tsx): set the active
section immediately, raise the suppression flag, `clearTimeout` the previous
handle if any, look the element up (issuing a smooth-scroll request only when
it exists), and schedule un-suppression after `scrollTimeout` ms.  Returns the
new state together with the scroll request issued (`none` when the target
element was missing). -/
def scrollToSection (cfg : ScrollSpyConfig) (env : ScrollEnv) (s : SpyState)
    (sectionId : String) (now : Int) : SpyState × Option String :=
  let cleared :=
    match s.scrollTimeoutRef with
    | some tid => s.pendingTimers.filter (fun t => decide (t.id ≠ tid))
    | none => s.pendingTimers
  let scrollRequest :=
    match env.getRect sectionId with
    | some _ => some sectionId
    | none => none
  let newTimer : Timer := { id := s.nextTimerId, fireTime := now + cfg.scrollTimeout }
  ({ s with
      activeSection := sectionId
      isScrolling := true
      pendingTimers := cleared ++ [newTimer]
      scrollTimeoutRef := some s.nextTimerId
      nextTimerId := s.nextTimerId + 1 },
   scrollRequest)

/-- The browser firing due timers at time `now`: every pending timer whose
fire time has been reached runs its callback `setIsScrolling(false)` and is
removed from the pending set. -/
def fireTimersAt (s : SpyState) (now : Int) : SpyState :=
  let due := s.pendingTimers.filter (fun t => decide (t.fireTime ≤ now))
  if due.isEmpty then s
  else
    { s with
        isScrolling := false
        pendingTimers := s.pendingTimers.filter (fun t => decide (now < t.fireTime)) }

/-- Running a sequence of scroll ticks from a state. -/
def runTicks (cfg : ScrollSpyConfig) (envs : List ScrollEnv) (s : SpyState) : SpyState :=
  envs.foldl (fun s env => handleScroll cfg env s) s

/-- The detection-line test as the spec phrases it: the section's element is
rendered and the line `offsetThreshold` pixels below the viewport top falls
inside its vertical extent (`top <= offsetThreshold AND bottom >= offsetThreshold`). -/
def matchesLine (env : ScrollEnv) (offsetThreshold : Int) (sid : String) : Prop :=
  ∃ r, env.getRect sid = some r ∧ r.top ≤ offsetThreshold ∧ offsetThreshold ≤ r.bottom

theorem sectionMatches_iff (env : ScrollEnv) (o : Int) (sid : String) :
    sectionMatches env o sid = true ↔ matchesLine env o sid := by
  unfold sectionMatches matchesLine
  cases h : env.getRect sid with
  | none => simp
  | some r => simp

theorem headD_mem {α : Type} (l : List α) (d : α) (h : l ≠ []) : l.headD d ∈ l := by
  cases l with
  | nil => exact absurd rfl h
  | cons a t => simp [List.headD]

theorem getLastD_mem {α : Type} (l : List α) (d : α) (h : l ≠ []) : l.getLastD d ∈ l := by
  cases l with
  | nil => exact absurd rfl h
  | cons a t =>
      rw [List.getLastD_eq_getLast?, List.getLast?_eq_getLast _ (by simp),
        Option.getD_some]
      exact List.getLast_mem _

/-- Value `nextActive` stays in the configured list when the previous value is. -/
theorem nextActive_mem (cfg : ScrollSpyConfig) (env : ScrollEnv) (prev : String)
    (hprev : prev ∈ cfg.sectionIds) : nextActive cfg env prev ∈ cfg.sectionIds := by
  unfold nextActive
  by_cases hb :
      (decide (env.innerHeight + env.scrollY ≥ env.scrollHeight - cfg.bottomTolerance)
        && decide (cfg.sectionIds.length > 0)) = true
  · have hne : cfg.sectionIds ≠ [] := by
      rcases Bool.and_eq_true_iff.mp hb with ⟨-, h2⟩
      have := of_decide_eq_true h2
      exact List.ne_nil_of_length_pos this
    simp only [hb, if_true]
    exact getLastD_mem _ _ hne
  · simp only [Bool.not_eq_true] at hb
    simp only [hb, Bool.false_eq_true, if_false]
    cases hf : cfg.sectionIds.find? (fun sid => sectionMatches env cfg.offsetThreshold sid) with
    | none => simpa [hf] using hprev
    | some current =>
        simp only [hf]
        exact List.mem_of_find?_eq_some hf

/-- A single scroll tick keeps `activeSection` inside the configured list. -/
theorem handleScroll_active_mem (cfg : ScrollSpyConfig) (env : ScrollEnv) (s : SpyState)
    (hmem : s.activeSection ∈ cfg.sectionIds) :
    (handleScroll cfg env s).activeSection ∈ cfg.sectionIds := by
  unfold handleScroll
  by_cases hsc : s.isScrolling
  · simpa [hsc] using hmem
  · simpa [hsc] using nextActive_mem cfg env s.activeSection hmem

/-- Any sequence of scroll ticks preserves membership of `activeSection` in
the configured list. -/
theorem runTicks_active_mem (cfg : ScrollSpyConfig) (envs : List ScrollEnv) :
    ∀ s : SpyState, s.activeSection ∈ cfg.sectionIds →
      (runTicks cfg envs s).activeSection ∈ cfg.sectionIds := by
  induction envs with
  | nil => intro s h; simpa [runTicks] using h
  | cons env rest ih =>
      intro s h
      have hstep : runTicks cfg (env :: rest) s =
          runTicks cfg rest (handleScroll cfg env s) := rfl
      rw [hstep]
      exact ih _ (handleScroll_active_mem cfg env s h)

/-- C1: for every configured section list of length ≥ 1, with `initialSection`
unset (so it defaults to the first entry), after initialisation and any
sequence of scroll ticks `activeSectionId` is a member of the configured
section list. -/
theorem scrollSpy_activeSection_mem (cfg : ScrollSpyConfig) (envs : List ScrollEnv)
    (hne : cfg.sectionIds ≠ []) (hinit : cfg.initialSection? = none) :
    (runTicks cfg envs (initState cfg)).activeSection ∈ cfg.sectionIds := by
  refine runTicks_active_mem cfg envs _ ?_
  simp only [initState, hinit, Option.getD_none]
  exact headD_mem _ _ hne

theorem scrollSpy_activeSection_mem_witness :
    (runTicks { sectionIds := ["home", "about", "contact"] }
      [{ scrollY := 600, innerHeight := 800, scrollHeight := 2705
         getRect := fun sid => if sid = "about" then some ⟨-100, 500⟩ else none },
       { scrollY := 0, innerHeight := 800, scrollHeight := 2705
         getRect := fun _ => none }]
      (initState { sectionIds := ["home", "about", "contact"] })).activeSection ∈
      ["home", "about", "contact"] := by
  exact scrollSpy_activeSection_mem { sectionIds := ["home", "about", "contact"] }
    [{ scrollY := 600, innerHeight := 800, scrollHeight := 2705
       getRect := fun sid => if sid = "about" then some ⟨-100, 500⟩ else none },
     { scrollY := 0, innerHeight := 800, scrollHeight := 2705
       getRect := fun _ => none }]
    (by decide) rfl

/-- C2: on a scroll tick with suppression off, if
`viewportHeight + verticalScrollOffset >= totalPageHeight - bottomTolerancePx`,
the tick sets `activeSectionId` to the last entry of the configured (nonempty)
section list and changes nothing else — in particular no section matching is
performed: the result does not depend on `env.getRect` at all. -/
theorem scrollSpy_bottom_override (cfg : ScrollSpyConfig) (env : ScrollEnv) (s : SpyState)
    (hsup : s.isScrolling = false)
    (hne : cfg.sectionIds ≠ [])
    (hbot : env.innerHeight + env.scrollY ≥ env.scrollHeight - cfg.bottomTolerance) :
    handleScroll cfg env s =
      { s with
          scrolled := decide (env.scrollY > cfg.scrollThreshold)
          activeSection := cfg.sectionIds.getLastD "" } := by
  have hlen : cfg.sectionIds.length > 0 := List.length_pos.mpr hne
  have hna : nextActive cfg env s.activeSection = cfg.sectionIds.getLastD "" := by
    simp [nextActive, hbot, hlen]
  simp [handleScroll, hsup, hna]

theorem scrollSpy_bottom_override_witness :
    let cfg : ScrollSpyConfig := { sectionIds := ["home", "about", "contact"] }
    let env : ScrollEnv :=
      { scrollY := 1900, innerHeight := 800, scrollHeight := 2705
        getRect := fun sid => if sid = "home" then some ⟨0, 400⟩ else none }
    let s : SpyState :=
      { scrolled := true, activeSection := "home", isScrolling := false
        scrollTimeoutRef := none, pendingTimers := [], nextTimerId := 0 }
    (handleScroll cfg env s).activeSection = "contact" := by
  have h := scrollSpy_bottom_override
    { sectionIds := ["home", "about", "contact"] }
    { scrollY := 1900, innerHeight := 800, scrollHeight := 2705
      getRect := fun sid => if sid = "home" then some ⟨0, 400⟩ else none }
    { scrolled := true, activeSection := "home", isScrolling := false
      scrollTimeoutRef := none, pendingTimers := [], nextTimerId := 0 }
    rfl (by decide) (by decide)
  simpa using congrArg SpyState.activeSection h

/-- Scanning `find?` over a split list whose prefix has no matches returns the split
point when it matches. -/
theorem find?_first_of_split {α : Type} (p : α → Bool) :
    ∀ (l₁ : List α) (x : α) (l₂ : List α), p x = true → (∀ y ∈ l₁, p y = false) →
      List.find? p (l₁ ++ x :: l₂) = some x := by
  intro l₁
  induction l₁ with
  | nil =>
      intro x l₂ hx _
      simpa using List.find?_cons_of_pos l₂ hx
  | cons a t ih =>
      intro x l₂ hx hpre
      have ha : p a = false := hpre a (by simp)
      have : List.find? p ((a :: t) ++ x :: l₂) = List.find? p (t ++ x :: l₂) := by
        simpa using List.find?_cons_of_neg (t ++ x :: l₂) (by simp [ha])
      rw [this]
      exact ih x l₂ hx (fun y hy => hpre y (by simp [hy]))

/-- C3: on a scroll tick with suppression off and the bottom-of-page check
failing, the tick scans the configured sections in list order: if no section
satisfies the detection-line test (a missing element never matches),
`activeSectionId` keeps its previous value; if some do, the earliest matching
section in list order becomes active. -/
theorem scrollSpy_scan_order (cfg : ScrollSpyConfig) (env : ScrollEnv) (s : SpyState)
    (hsup : s.isScrolling = false)
    (hbot : ¬ env.innerHeight + env.scrollY ≥ env.scrollHeight - cfg.bottomTolerance) :
    ((∀ sid ∈ cfg.sectionIds, ¬ matchesLine env cfg.offsetThreshold sid) →
        (handleScroll cfg env s).activeSection = s.activeSection) ∧
    (∀ (l₁ l₂ : List String) (sid : String),
        cfg.sectionIds = l₁ ++ sid :: l₂ →
        matchesLine env cfg.offsetThreshold sid →
        (∀ sid' ∈ l₁, ¬ matchesLine env cfg.offsetThreshold sid') →
        (handleScroll cfg env s).activeSection = sid) := by
  have hact : (handleScroll cfg env s).activeSection = nextActive cfg env s.activeSection := by
    simp [handleScroll, hsup]
  constructor
  · intro hnone
    have hfind :
        cfg.sectionIds.find? (fun sid => sectionMatches env cfg.offsetThreshold sid) = none := by
      rw [List.find?_eq_none]
      intro x hx
      simpa [sectionMatches_iff] using hnone x hx
    rw [hact]
    simp [nextActive, hbot, hfind]
  · intro l₁ l₂ sid hsplit hm hpre
    have hfind :
        cfg.sectionIds.find? (fun t => sectionMatches env cfg.offsetThreshold t) = some sid := by
      rw [hsplit]
      refine find?_first_of_split _ l₁ sid l₂ ?_ ?_
      · exact (sectionMatches_iff _ _ _).mpr hm
      · intro y hy
        have h1 := hpre y hy
        rw [Bool.eq_false_iff]
        intro hc
        exact h1 ((sectionMatches_iff _ _ _).mp hc)
    rw [hact]
    simp [nextActive, hbot, hfind]

theorem scrollSpy_scan_order_witness :
    let cfg : ScrollSpyConfig := { sectionIds := ["home", "about", "contact"] }
    let env : ScrollEnv :=
      { scrollY := 600, innerHeight := 800, scrollHeight := 2705
        getRect := fun sid =>
          if sid = "about" then some ⟨-100, 500⟩
          else if sid = "contact" then some ⟨50, 900⟩
          else none }
    let s : SpyState :=
      { scrolled := true, activeSection := "home", isScrolling := false
        scrollTimeoutRef := none, pendingTimers := [], nextTimerId := 0 }
    (handleScroll cfg env s).activeSection = "about" := by
  have h := scrollSpy_scan_order
    { sectionIds := ["home", "about", "contact"] }
    { scrollY := 600, innerHeight := 800, scrollHeight := 2705
      getRect := fun sid =>
        if sid = "about" then some ⟨-100, 500⟩
        else if sid = "contact" then some ⟨50, 900⟩
        else none }
    { scrolled := true, activeSection := "home", isScrolling := false
      scrollTimeoutRef := none, pendingTimers := [], nextTimerId := 0 }
    rfl (by decide)
  refine h.2 ["home"] ["contact"] "about" rfl ?_ ?_
  · exact ⟨⟨-100, 500⟩, rfl, by decide, by decide⟩
  · intro sid' hmem
    have : sid' = "home" := by simpa using hmem
    subst this
    rintro ⟨r, hr, -⟩
    simp at hr

/-- Well-formedness of the timer bookkeeping: the mechanism keeps at most one
pending un-suppression timer, and when one is pending `scrollTimeoutRef`
holds its handle.  This holds initially and is preserved by every operation. -/
def wfTimers (s : SpyState) : Prop :=
  s.pendingTimers = [] ∨
    ∃ tm : Timer, s.pendingTimers = [tm] ∧ s.scrollTimeoutRef = some tm.id

theorem initState_wfTimers (cfg : ScrollSpyConfig) : wfTimers (initState cfg) :=
  Or.inl rfl

/-- A scroll tick never touches the suppression flag or timer bookkeeping. -/
theorem handleScroll_timer_fields (cfg : ScrollSpyConfig) (env : ScrollEnv) (s : SpyState) :
    (handleScroll cfg env s).pendingTimers = s.pendingTimers ∧
    (handleScroll cfg env s).scrollTimeoutRef = s.scrollTimeoutRef ∧
    (handleScroll cfg env s).isScrolling = s.isScrolling ∧
    (handleScroll cfg env s).nextTimerId = s.nextTimerId := by
  unfold handleScroll
  by_cases h1 : s.isScrolling <;> simp [h1]

theorem handleScroll_wfTimers (cfg : ScrollSpyConfig) (env : ScrollEnv) (s : SpyState)
    (h : wfTimers s) : wfTimers (handleScroll cfg env s) := by
  obtain ⟨hpt, href, -, -⟩ := handleScroll_timer_fields cfg env s
  unfold wfTimers
  rw [hpt, href]
  exact h

/-- From a well-formed state, a navigate call cancels whatever timer was
pending and leaves exactly the freshly scheduled one, with the ref pointing at
it; it also performs the synchronous state updates. -/
theorem scrollToSection_state (cfg : ScrollSpyConfig) (env : ScrollEnv) (s : SpyState)
    (sid : String) (now : Int) (h : wfTimers s) :
    (scrollToSection cfg env s sid now).1.activeSection = sid ∧
    (scrollToSection cfg env s sid now).1.isScrolling = true ∧
    (scrollToSection cfg env s sid now).1.pendingTimers =
      [⟨s.nextTimerId, now + cfg.scrollTimeout⟩] ∧
    (scrollToSection cfg env s sid now).1.scrollTimeoutRef = some s.nextTimerId ∧
    (scrollToSection cfg env s sid now).1.nextTimerId = s.nextTimerId + 1 := by
  rcases h with hnil | ⟨tm, hpt, href⟩
  · cases href : s.scrollTimeoutRef <;>
      simp [scrollToSection, hnil, href]
  · simp [scrollToSection, hpt, href]

theorem scrollToSection_wfTimers (cfg : ScrollSpyConfig) (env : ScrollEnv) (s : SpyState)
    (sid : String) (now : Int) (h : wfTimers s) :
    wfTimers (scrollToSection cfg env s sid now).1 := by
  obtain ⟨-, -, hpt, href, -⟩ := scrollToSection_state cfg env s sid now h
  exact Or.inr ⟨⟨s.nextTimerId, now + cfg.scrollTimeout⟩, hpt, href⟩

theorem fireTimersAt_wfTimers (s : SpyState) (now : Int) (h : wfTimers s) :
    wfTimers (fireTimersAt s now) := by
  unfold fireTimersAt
  by_cases hemp : (s.pendingTimers.filter (fun t => decide (t.fireTime ≤ now))).isEmpty = true
  · simpa [hemp] using h
  · simp only [Bool.not_eq_true] at hemp
    simp only [hemp, Bool.false_eq_true, if_false]
    rcases h with hnil | ⟨tm, hpt, href⟩
    · exact Or.inl (by simp [hnil])
    · rw [hpt]
      by_cases hk : now < tm.fireTime
      · exact Or.inr ⟨tm, by simp [hk], href⟩
      · exact Or.inl (by simp [hk])

/-- If no pending timer is due yet, firing timers is a no-op. -/
theorem fireTimersAt_no_due (s : SpyState) (now : Int)
    (h : ∀ tm ∈ s.pendingTimers, now < tm.fireTime) :
    fireTimersAt s now = s := by
  unfold fireTimersAt
  have hfil : s.pendingTimers.filter (fun t => decide (t.fireTime ≤ now)) = [] := by
    rw [List.filter_eq_nil_iff]
    intro tm hmem
    simpa using not_le.mpr (h tm hmem)
  simp [hfil]

/-- If some pending timer is due, firing timers clears the suppression flag. -/
theorem fireTimersAt_clears (s : SpyState) (now : Int) (tm : Timer)
    (hmem : tm ∈ s.pendingTimers) (hdue : tm.fireTime ≤ now) :
    (fireTimersAt s now).isScrolling = false := by
  unfold fireTimersAt
  have hne : ¬ (s.pendingTimers.filter (fun t => decide (t.fireTime ≤ now))).isEmpty = true := by
    have hm : tm ∈ s.pendingTimers.filter (fun t => decide (t.fireTime ≤ now)) :=
      List.mem_filter.mpr ⟨hmem, by simpa using hdue⟩
    intro hempty
    rw [List.isEmpty_iff] at hempty
    rw [hempty] at hm
    exact absurd hm (List.not_mem_nil tm)
  simp [hne]

/-- C4: a navigate call sets `activeSectionId` to its target synchronously and
suppression stays on at any instant strictly before the scheduled
un-suppression; after two navigate calls T1 at `t1` then T2 at `t2` inside the
cooldown window (with no timer able to fire in between since
`t2 < t1 + scrollTimeout`), the final `activeSectionId` is T2 and exactly one
un-suppression timer is pending — the one scheduled by T2, the one scheduled
by T1 having been cancelled. -/
theorem scrollSpy_navigate_last_wins (cfg : ScrollSpyConfig) (env₁ env₂ : ScrollEnv)
    (s : SpyState) (T1 T2 : String) (t1 t2 t' : Int)
    (hwf : wfTimers s)
    (h12 : t2 < t1 + cfg.scrollTimeout)
    (ht' : t' < t1 + cfg.scrollTimeout) :
    (scrollToSection cfg env₁ s T1 t1).1.activeSection = T1 ∧
    (scrollToSection cfg env₁ s T1 t1).1.isScrolling = true ∧
    (fireTimersAt (scrollToSection cfg env₁ s T1 t1).1 t').isScrolling = true ∧
    ((scrollToSection cfg env₂ (fireTimersAt (scrollToSection cfg env₁ s T1 t1).1 t2)
        T2 t2).1.activeSection = T2 ∧
      (scrollToSection cfg env₂ (fireTimersAt (scrollToSection cfg env₁ s T1 t1).1 t2)
        T2 t2).1.pendingTimers = [⟨s.nextTimerId + 1, t2 + cfg.scrollTimeout⟩] ∧
      (scrollToSection cfg env₂ (fireTimersAt (scrollToSection cfg env₁ s T1 t1).1 t2)
        T2 t2).1.scrollTimeoutRef = some (s.nextTimerId + 1)) := by
  obtain ⟨ha1, hi1, hp1, hr1, hn1⟩ := scrollToSection_state cfg env₁ s T1 t1 hwf
  set s1 := (scrollToSection cfg env₁ s T1 t1).1 with hs1
  have hnofire : ∀ u : Int, u < t1 + cfg.scrollTimeout → fireTimersAt s1 u = s1 := by
    intro u hu
    refine fireTimersAt_no_due s1 u ?_
    intro tm hmem
    rw [hp1] at hmem
    have : tm = ⟨s.nextTimerId, t1 + cfg.scrollTimeout⟩ := by simpa using hmem
    rw [this]
    exact hu
  have hwf1 : wfTimers s1 := Or.inr ⟨⟨s.nextTimerId, t1 + cfg.scrollTimeout⟩, hp1, hr1⟩
  refine ⟨ha1, hi1, ?_, ?_⟩
  · rw [hnofire t' ht']
    exact hi1
  · rw [hnofire t2 h12]
    obtain ⟨ha2, hi2, hp2, hr2, hn2⟩ := scrollToSection_state cfg env₂ s1 T2 t2 hwf1
    rw [hn1] at hp2 hr2
    exact ⟨ha2, hp2, hr2⟩

theorem scrollSpy_navigate_last_wins_witness :
    let cfg : ScrollSpyConfig := { sectionIds := ["home", "about", "contact"] }
    let env : ScrollEnv :=
      { scrollY := 0, innerHeight := 800, scrollHeight := 2705
        getRect := fun _ => none }
    let s0 : SpyState := initState cfg
    ((scrollToSection cfg env (fireTimersAt (scrollToSection cfg env s0 "about" 5000).1 5300)
        "contact" 5300).1.activeSection = "contact" ∧
      (scrollToSection cfg env (fireTimersAt (scrollToSection cfg env s0 "about" 5000).1 5300)
        "contact" 5300).1.pendingTimers = [⟨1, 6300⟩]) := by
  have h := scrollSpy_navigate_last_wins { sectionIds := ["home", "about", "contact"] }
    { scrollY := 0, innerHeight := 800, scrollHeight := 2705, getRect := fun _ => none }
    { scrollY := 0, innerHeight := 800, scrollHeight := 2705, getRect := fun _ => none }
    (initState { sectionIds := ["home", "about", "contact"] })
    "about" "contact" 5000 5300 5500
    (initState_wfTimers _) (by decide) (by decide)
  exact ⟨h.2.2.2.1, h.2.2.2.2.1⟩

/-- C8: when the navigate target cannot be located, no scroll request is
issued but the operation still sets `activeSectionId` to the target, raises
suppression, leaves exactly the freshly scheduled timer pending, and that
timer, once due, clears suppression — the system is never left permanently
suppressed. -/
theorem scrollSpy_missing_target (cfg : ScrollSpyConfig) (env : ScrollEnv) (s : SpyState)
    (target : String) (now : Int)
    (hwf : wfTimers s)
    (hmiss : env.getRect target = none) :
    (scrollToSection cfg env s target now).2 = none ∧
    (scrollToSection cfg env s target now).1.activeSection = target ∧
    (scrollToSection cfg env s target now).1.isScrolling = true ∧
    (scrollToSection cfg env s target now).1.pendingTimers =
      [⟨s.nextTimerId, now + cfg.scrollTimeout⟩] ∧
    (fireTimersAt (scrollToSection cfg env s target now).1
      (now + cfg.scrollTimeout)).isScrolling = false := by
  obtain ⟨ha, hi, hp, hr, hn⟩ := scrollToSection_state cfg env s target now hwf
  refine ⟨?_, ha, hi, hp, ?_⟩
  · simp [scrollToSection, hmiss]
  · refine fireTimersAt_clears _ _ ⟨s.nextTimerId, now + cfg.scrollTimeout⟩ ?_ le_rfl
    rw [hp]
    exact List.mem_singleton_self _

theorem scrollSpy_missing_target_witness :
    let cfg : ScrollSpyConfig := { sectionIds := ["home", "about", "contact"] }
    let env : ScrollEnv :=
      { scrollY := 0, innerHeight := 800, scrollHeight := 2705
        getRect := fun _ => none }
    let s0 : SpyState := initState cfg
    ((scrollToSection cfg env s0 "about" 5000).2 = none ∧
      (scrollToSection cfg env s0 "about" 5000).1.activeSection = "about" ∧
      (fireTimersAt (scrollToSection cfg env s0 "about" 5000).1 6000).isScrolling = false) := by
  have h := scrollSpy_missing_target { sectionIds := ["home", "about", "contact"] }
    { scrollY := 0, innerHeight := 800, scrollHeight := 2705, getRect := fun _ => none }
    (initState { sectionIds := ["home", "about", "contact"] })
    "about" 5000 (initState_wfTimers _) rfl
  exact ⟨h.1, h.2.1, h.2.2.2.2⟩

/-! ### Contact form rate limiter (src/components/layout/contact/Contact.tsx) -/

/-- Constant `MAX_SUBMISSIONS = 3`. -/
def MAX_SUBMISSIONS : Nat := 3

/-- Constant `TIME_WINDOW_MS = 10 * 60 * 1000`. -/
def TIME_WINDOW_MS : Int := 10 * 60 * 1000

/-- Function `getRecentSubmissions`: keep the timestamps with `now - timestamp < TIME_WINDOW_MS`. -/
def getRecentSubmissions (now : Int) (timestamps : List Int) : List Int :=
  timestamps.filter (fun t => decide (now - t < TIME_WINDOW_MS))

/-- Model of `Math.min(...recent)` over a nonempty list (`0` is never reached: the
caller guards with `recent.length >= MAX_SUBMISSIONS`). -/
def listMin : List Int → Int
  | [] => 0
  | x :: xs => xs.foldl min x

/-- Result of `checkRateLimit`: the flag and the optional wait time. -/
structure RateCheck where
  isLimited : Bool
  waitTimeMs : Option Int
deriving Repr, DecidableEq

/-- Function `checkRateLimit`: prune, compare the remaining count against
`MAX_SUBMISSIONS`, and when limited report
`Math.max(0, TIME_WINDOW_MS - (now - oldestSubmission))`. -/
def checkRateLimit (now : Int) (stored : List Int) : RateCheck :=
  let recent := getRecentSubmissions now stored
  if MAX_SUBMISSIONS ≤ recent.length then
    { isLimited := true
      waitTimeMs := some (max 0 (TIME_WINDOW_MS - (now - listMin recent))) }
  else
    { isLimited := false, waitTimeMs := none }

/-- Function `recordSubmission`: prune, then append `now`, then persist. -/
def recordSubmission (now : Int) (stored : List Int) : List Int :=
  getRecentSubmissions now stored ++ [now]

/-- The state `handleSubmit` reads and writes: the persisted timestamp list
and the three controlled form fields. -/
structure ContactState where
  storedTimestamps : List Int
  formName : String
  formEmail : String
  formMessage : String
deriving Repr, DecidableEq

/-- The guard `rateCheck.isLimited && rateCheck.waitTimeMs` in `handleSubmit`,
with JavaScript truthiness on the optional number (`undefined` and `0` are
falsy). -/
def rateCheckBlocks (rc : RateCheck) : Bool :=
  rc.isLimited &&
    (match rc.waitTimeMs with
     | some w => decide (w ≠ 0)
     | none => false)

/-- Function `handleSubmit` at time `now` with the EmailJS call resolving to
`sendSucceeds`: abort when the rate check blocks (no network call, state
untouched); otherwise send, and on success only record the timestamp and
clear the form.  The returned `Bool` is whether the network call was made. -/
def handleSubmit (now : Int) (sendSucceeds : Bool) (s : ContactState) :
    Bool × ContactState :=
  if rateCheckBlocks (checkRateLimit now s.storedTimestamps) then
    (false, s)
  else if sendSucceeds then
    (true,
      { s with
          storedTimestamps := recordSubmission now s.storedTimestamps
          formName := ""
          formEmail := ""
          formMessage := "" })
  else
    (true, s)

theorem foldl_min_mem (t : List Int) : ∀ y : Int, t.foldl min y ∈ y :: t := by
  induction t with
  | nil => intro y; simp
  | cons a t ih =>
      intro y
      have h1 := ih (min y a)
      simp only [List.foldl_cons]
      rcases List.mem_cons.mp h1 with h | h
      · rcases min_choice y a with hm | hm <;> rw [h, hm] <;> simp
      · exact List.mem_cons_of_mem _ (List.mem_cons_of_mem _ h)

theorem listMin_mem (l : List Int) (h : l ≠ []) : listMin l ∈ l := by
  cases l with
  | nil => exact absurd rfl h
  | cons x xs => simpa [listMin] using foldl_min_mem xs x

theorem mem_getRecent_lt (now : Int) (stored : List Int) (u : Int)
    (h : u ∈ getRecentSubmissions now stored) : now - u < TIME_WINDOW_MS := by
  have := (List.mem_filter.mp h).2
  simpa using this

/-- The pruned-count test and the abort guard agree: when the pruned count
reaches the limit the computed wait time is strictly positive, hence truthy. -/
theorem rateCheckBlocks_iff (now : Int) (stored : List Int) :
    rateCheckBlocks (checkRateLimit now stored) = true ↔
      MAX_SUBMISSIONS ≤ (getRecentSubmissions now stored).length := by
  constructor
  · intro h
    by_contra hn
    simp [rateCheckBlocks, checkRateLimit, hn] at h
  · intro h
    have hne : getRecentSubmissions now stored ≠ [] := by
      intro hnil
      rw [hnil] at h
      simp [MAX_SUBMISSIONS] at h
    have hmin : listMin (getRecentSubmissions now stored) ∈ getRecentSubmissions now stored :=
      listMin_mem _ hne
    have hlt : now - listMin (getRecentSubmissions now stored) < TIME_WINDOW_MS :=
      mem_getRecent_lt now stored _ hmin
    have hpos : 0 < TIME_WINDOW_MS - (now - listMin (getRecentSubmissions now stored)) := by
      omega
    have hmax : max 0 (TIME_WINDOW_MS - (now - listMin (getRecentSubmissions now stored))) ≠ 0 := by
      omega
    simp [rateCheckBlocks, checkRateLimit, h, hmax]

/-- C5: whenever the pruned timestamp count has reached `maxSubmissions`, the
attempt aborts — no network call, state (timestamps and form) untouched — and
the reported wait time is `timeWindowMs - (now - oldestRemainingTimestamp)`;
concretely, with sends recorded at t = 0, 100, 200 an attempt at t = 300 is
blocked with wait time 599700 ms, and an attempt at t = 600001 is not blocked. -/
theorem contact_rateLimit_blocks (now : Int) (b : Bool) (s : ContactState)
    (hfull : MAX_SUBMISSIONS ≤ (getRecentSubmissions now s.storedTimestamps).length) :
    handleSubmit now b s = (false, s) ∧
    (checkRateLimit now s.storedTimestamps).waitTimeMs =
      some (TIME_WINDOW_MS -
        (now - listMin (getRecentSubmissions now s.storedTimestamps))) ∧
    checkRateLimit 300 [0, 100, 200] =
      { isLimited := true, waitTimeMs := some 599700 } ∧
    rateCheckBlocks (checkRateLimit 600001 [0, 100, 200]) = false ∧
    (handleSubmit 600001 true ⟨[0, 100, 200], "a", "b", "c"⟩).1 = true := by
  refine ⟨?_, ?_, by decide, by decide, by decide⟩
  · have hblk := (rateCheckBlocks_iff now s.storedTimestamps).mpr hfull
    simp [handleSubmit, hblk]
  · have hne : getRecentSubmissions now s.storedTimestamps ≠ [] := by
      intro hnil
      rw [hnil] at hfull
      simp [MAX_SUBMISSIONS] at hfull
    have hlt : now - listMin (getRecentSubmissions now s.storedTimestamps) < TIME_WINDOW_MS :=
      mem_getRecent_lt now s.storedTimestamps _ (listMin_mem _ hne)
    have hmax : max 0 (TIME_WINDOW_MS - (now - listMin (getRecentSubmissions now s.storedTimestamps)))
        = TIME_WINDOW_MS - (now - listMin (getRecentSubmissions now s.storedTimestamps)) := by
      omega
    simp [checkRateLimit, hfull, hmax]

theorem contact_rateLimit_blocks_witness :
    handleSubmit 300 true ⟨[0, 100, 200], "a", "b", "c"⟩ =
      (false, ⟨[0, 100, 200], "a", "b", "c"⟩) ∧
    (checkRateLimit 300 [0, 100, 200]).waitTimeMs = some 599700 := by
  have h := contact_rateLimit_blocks 300 true ⟨[0, 100, 200], "a", "b", "c"⟩ (by decide)
  refine ⟨h.1, ?_⟩
  rw [h.2.1]
  decide

/-- C6: a timestamp is persisted if and only if the send succeeds: on failure
(and on a blocked attempt) the whole state — persisted list and form fields —
is unchanged; on a non-blocked success the pruned list gets exactly `now`
appended and the form fields are cleared; hence one failed attempt followed by
one successful attempt starting from an empty persisted list leaves exactly
one entry. -/
theorem contact_record_iff_success :
    (∀ (now : Int) (s : ContactState), (handleSubmit now false s).2 = s) ∧
    (∀ (now : Int) (s : ContactState),
      rateCheckBlocks (checkRateLimit now s.storedTimestamps) = false →
        (handleSubmit now true s).2 =
          ⟨getRecentSubmissions now s.storedTimestamps ++ [now], "", "", ""⟩) ∧
    (∀ (t1 t2 : Int) (n e m : String),
      ((handleSubmit t2 true (handleSubmit t1 false ⟨[], n, e, m⟩).2).2).storedTimestamps
        = [t2]) := by
  refine ⟨?_, ?_, ?_⟩
  · intro now s
    unfold handleSubmit
    by_cases hblk : rateCheckBlocks (checkRateLimit now s.storedTimestamps) = true <;>
      simp [hblk]
  · intro now s hblk
    simp [handleSubmit, hblk, recordSubmission]
  · intro t1 t2 n e m
    have hblk1 : rateCheckBlocks (checkRateLimit t1 []) = false := by
      simp [rateCheckBlocks, checkRateLimit, getRecentSubmissions, MAX_SUBMISSIONS]
    have h1 : (handleSubmit t1 false ⟨[], n, e, m⟩).2 = ⟨[], n, e, m⟩ := by
      simp [handleSubmit, hblk1]
    rw [h1]
    have hblk2 : rateCheckBlocks (checkRateLimit t2 []) = false := by
      simp [rateCheckBlocks, checkRateLimit, getRecentSubmissions, MAX_SUBMISSIONS]
    simp [handleSubmit, hblk2, recordSubmission, getRecentSubmissions]

theorem contact_record_iff_success_witness :
    ((handleSubmit 500 true (handleSubmit 400 false ⟨[], "n", "e", "m"⟩).2).2).storedTimestamps
      = [500] :=
  contact_record_iff_success.2.2 400 500 "n" "e" "m"

/-- The invariant the check-then-record protocol maintains: every persisted
timestamp is in the past, and the count inside the current sliding window is
at most `MAX_SUBMISSIONS`. -/
def invAt (l : List Int) (t : Int) : Prop :=
  (∀ x ∈ l, x ≤ t) ∧ (getRecentSubmissions t l).length ≤ MAX_SUBMISSIONS

/-- As the clock moves forward over past-only timestamps, the within-window
count can only shrink. -/
theorem recentCount_mono (l : List Int) (t t' : Int) (htt : t ≤ t')
    (hb : ∀ x ∈ l, x ≤ t) :
    (getRecentSubmissions t' l).length ≤ (getRecentSubmissions t l).length := by
  induction l with
  | nil => simp [getRecentSubmissions]
  | cons a l ih =>
      have ha : a ≤ t := hb a (by simp)
      have hrest := ih (fun x hx => hb x (by simp [hx]))
      unfold getRecentSubmissions at hrest ⊢
      by_cases h1 : t' - a < TIME_WINDOW_MS
      · have h2 : t - a < TIME_WINDOW_MS := by omega
        simpa [List.filter_cons, h1, h2] using hrest
      · have hskip : (List.filter (fun u => decide (t - u < TIME_WINDOW_MS)) l).length ≤
            (List.filter (fun u => decide (t - u < TIME_WINDOW_MS)) (a :: l)).length := by
          rw [List.filter_cons]
          by_cases h2 : t - a < TIME_WINDOW_MS <;> simp [h2]
        rw [List.filter_cons]
        simp only [h1]
        exact le_trans hrest hskip

theorem invAt_mono (l : List Int) (t t' : Int) (htt : t ≤ t') (h : invAt l t) :
    invAt l t' :=
  ⟨fun x hx => le_trans (h.1 x hx) htt,
   le_trans (recentCount_mono l t t' htt h.1) h.2⟩

/-- Pruning is idempotent. -/
theorem getRecent_idem (t : Int) (l : List Int) :
    getRecentSubmissions t (getRecentSubmissions t l) = getRecentSubmissions t l := by
  unfold getRecentSubmissions
  rw [List.filter_eq_self]
  intro a ha
  exact (List.mem_filter.mp ha).2

/-- One submission attempt of the protocol: the persisted list after
`handleSubmit` runs at time `att.1` with send outcome `att.2`. -/
def runAttempt (l : List Int) (att : Int × Bool) : List Int :=
  ((handleSubmit att.1 att.2 ⟨l, "", "", ""⟩).2).storedTimestamps

def runAttempts (atts : List (Int × Bool)) (l : List Int) : List Int :=
  atts.foldl runAttempt l

theorem runAttempt_invAt (l : List Int) (att : Int × Bool) (t : Int)
    (htt : t ≤ att.1) (h : invAt l t) : invAt (runAttempt l att) att.1 := by
  have h' : invAt l att.1 := invAt_mono l t att.1 htt h
  unfold runAttempt
  by_cases hblk : rateCheckBlocks (checkRateLimit att.1 l) = true
  · simpa [handleSubmit, hblk] using h'
  · rcases hb : att.2 with _ | _
    · simpa [handleSubmit, hblk, hb] using h'
    · have hcnt : (getRecentSubmissions att.1 l).length < MAX_SUBMISSIONS := by
        by_contra hge
        exact hblk ((rateCheckBlocks_iff att.1 l).mpr (le_of_not_lt hge))
      have hres : ((handleSubmit att.1 att.2 ⟨l, "", "", ""⟩).2).storedTimestamps =
          getRecentSubmissions att.1 l ++ [att.1] := by
        simp [handleSubmit, hblk, hb, recordSubmission]
      rw [hb] at hres
      rw [hres]
      constructor
      · intro x hx
        rcases List.mem_append.mp hx with hx | hx
        · exact h'.1 x ((List.mem_filter.mp hx).1)
        · have : x = att.1 := by simpa using hx
          omega
      · have hwin : (0 : Int) < TIME_WINDOW_MS := by decide
        rw [getRecentSubmissions, List.filter_append, ← getRecentSubmissions,
          getRecent_idem]
        have hself : List.filter (fun u => decide (att.1 - u < TIME_WINDOW_MS)) [att.1]
            = [att.1] := by
          simp
          omega
        rw [hself, List.length_append]
        simp only [List.length_singleton]
        omega

/-- Running any tail of the protocol from a state satisfying the invariant
keeps it, and the invariant transfers to any later observation time. -/
theorem runAttempts_invAt (atts : List (Int × Bool)) :
    ∀ (l : List Int) (t : Int), invAt l t →
      (∀ p ∈ atts, t ≤ p.1) →
      List.Pairwise (fun p q : Int × Bool => p.1 ≤ q.1) atts →
      ∀ T, t ≤ T → (∀ p ∈ atts, p.1 ≤ T) → invAt (runAttempts atts l) T := by
  induction atts with
  | nil =>
      intro l t h _ _ T hT _
      exact invAt_mono l t T hT h
  | cons a rest ih =>
      intro l t h hge hpw T hT hle
      rw [List.pairwise_cons] at hpw
      obtain ⟨ha_rest, hpw'⟩ := hpw
      have h1 : invAt (runAttempt l a) a.1 :=
        runAttempt_invAt l a t (hge a (by simp)) h
      have hstep : runAttempts (a :: rest) l = runAttempts rest (runAttempt l a) := rfl
      rw [hstep]
      exact ih (runAttempt l a) a.1 h1 ha_rest hpw' T (hle a (by simp))
        (fun p hp => hle p (by simp [hp]))

/-- C7: under the check-then-record protocol, starting from an empty persisted
list and with attempt times non-decreasing, the number of persisted timestamps
inside the current sliding window never exceeds `MAX_SUBMISSIONS`, at any
observation time at or after the attempts. -/
theorem contact_rateLimit_invariant (atts : List (Int × Bool)) (T : Int)
    (hpw : List.Pairwise (fun p q : Int × Bool => p.1 ≤ q.1) atts)
    (hT : ∀ p ∈ atts, p.1 ≤ T) :
    (getRecentSubmissions T (runAttempts atts [])).length ≤ MAX_SUBMISSIONS := by
  cases atts with
  | nil => simp [runAttempts, getRecentSubmissions, MAX_SUBMISSIONS]
  | cons a rest =>
      have hinv0 : invAt [] a.1 := by
        constructor
        · intro x hx
          exact absurd hx (List.not_mem_nil x)
        · simp [getRecentSubmissions, MAX_SUBMISSIONS]
      rw [List.pairwise_cons] at hpw
      obtain ⟨ha_rest, hpw'⟩ := hpw
      have h1 : invAt (runAttempt [] a) a.1 :=
        runAttempt_invAt [] a a.1 le_rfl hinv0
      have hstep : runAttempts (a :: rest) [] = runAttempts rest (runAttempt [] a) := rfl
      rw [hstep]
      exact (runAttempts_invAt rest (runAttempt [] a) a.1 h1 ha_rest hpw' T
        (hT a (by simp)) (fun p hp => hT p (by simp [hp]))).2

theorem contact_rateLimit_invariant_witness :
    (getRecentSubmissions 400
      (runAttempts [(0, true), (100, true), (200, true), (300, true), (400, false)] [])).length
      ≤ MAX_SUBMISSIONS := by
  exact contact_rateLimit_invariant
    [(0, true), (100, true), (200, true), (300, true), (400, false)] 400
    (by decide) (by decide)

/-! ### Theme initialisation and application (src/hooks/useTheme.tsx) -/

/-- The mount effect of `ThemeProvider`: state starts as `'light'`; a truthy
`localStorage.getItem('theme')` value is adopted as-is (the `as 'light' |
'dark' | null` cast performs no runtime validation); a falsy one (`null` or
the empty string) falls through to the `prefers-color-scheme: dark` signal,
else the `'light'` default stands. -/
def initTheme (savedTheme : Option String) (prefersDark : Bool) : String :=
  match savedTheme with
  | some s => if s = "" then (if prefersDark then "dark" else "light") else s
  | none => if prefersDark then "dark" else "light"

/-- The theme-application effect: `document.documentElement.classList` ends up
containing `'dark'` exactly when the theme string equals `'dark'`; every other
string removes the class, i.e. renders in light mode. -/
def darkClassApplied (theme : String) : Bool :=
  decide (theme = "dark")

/-- C9: initial theme resolution follows persisted value → OS color-scheme →
fixed `'light'` default: a non-empty persisted value always wins, with no
persisted value the OS signal decides, and the three scenario instances hold
(no value + OS dark ⇒ dark; persisted light + OS dark ⇒ light; neither ⇒
light). -/
theorem theme_resolution_priority :
    (∀ (s : String) (pd : Bool), s ≠ "" → initTheme (some s) pd = s) ∧
    (∀ pd : Bool, initTheme none pd = if pd then "dark" else "light") ∧
    initTheme none true = "dark" ∧
    initTheme (some "light") true = "light" ∧
    initTheme none false = "light" := by
  refine ⟨?_, ?_, rfl, by decide, rfl⟩
  · intro s pd hs
    simp [initTheme, hs]
  · intro pd
    rfl

theorem theme_resolution_priority_witness :
    initTheme (some "light") true = "light" :=
  theme_resolution_priority.1 "light" true (by decide)

/-- C10: the persisted theme is adopted without validation — any non-empty
stored string (e.g. `'blue'`) becomes the theme state — and the application
step treats every string other than exactly `'dark'` as light mode (the dark
class is absent); only the empty string or absence falls through to the OS
preference. -/
theorem theme_no_validation :
    (∀ (s : String) (pd : Bool), s ≠ "" → initTheme (some s) pd = s) ∧
    (∀ pd : Bool, initTheme (some "blue") pd = "blue") ∧
    (∀ s : String, s ≠ "dark" → darkClassApplied s = false) ∧
    darkClassApplied "blue" = false ∧
    (∀ pd : Bool, initTheme (some "") pd = initTheme none pd) := by
  refine ⟨?_, ?_, ?_, by decide, ?_⟩
  · intro s pd hs
    simp [initTheme, hs]
  · intro pd
    rfl
  · intro s hs
    simp [darkClassApplied, hs]
  · intro pd
    rfl

theorem theme_no_validation_witness :
    darkClassApplied "forest" = false :=
  theme_no_validation.2.2.1 "forest" (by decide)

end Portfolio
